import Mathlib

/-!
Shallow embedding of the parameter-optimization engine found in
`src/optimize`: the weighted score function (`score_function.py`), the
shared optimizer utilities (`optimizer_base.py`), the hill-climbing
optimizer (`hill_climbing.py`) and the coarse-to-fine grid-search
optimizer (`grid_search.py`).

Modelling conventions:
- Python floats are idealised as rationals (`ℚ`); the grid-search
  sentinel `float('-inf')` is modelled as `⊥ : WithBot ℚ`.
- Python dictionaries are insertion-ordered association lists
  (`List (String × _)`); metric snapshots are partial maps
  `String → Option ℚ`.
- The two injected collaborators (`apply_filter_func`, `analyze_func`)
  are external and deterministic, so a whole candidate evaluation
  (`OptimizerBase._evaluate` for a fixed image, pipeline and original
  metrics) is abstracted as a function `Params → ℚ`.
- The cooperative cancellation flag `self._stop_requested` is read at
  well-defined program points; the sequence of values those reads
  observe is modelled as a Boolean stream `stops : ℕ → Bool` consumed
  one value per read, which over-approximates every possible timing of
  an external `stop()` call.
-/

namespace NoiseOpt

/-- Lookup in an insertion-ordered association list (Python `dict` access
`d[k]` / `k in d`). -/
def alookup {α : Type} : List (String × α) → String → Option α
  | [], _ => none
  | (k, v) :: rest, key => if k = key then some v else alookup rest key

/-- Parameter assignment for a pipeline: filter name → parameter name → value
(the `current_params` / `best_params` dictionaries). -/
abbrev Params := List (String × List (String × ℚ))

/-- Two-level dictionary lookup `t[f][p]`. -/
def alookup2 {α : Type} (t : List (String × List (String × α))) (f p : String) :
    Option α :=
  match alookup t f with
  | none => none
  | some ps => alookup ps p

/-- Python dict update `d[k] = v`: overwrites in place, or appends preserving
insertion order. -/
def aset {α : Type} : List (String × α) → String → α → List (String × α)
  | [], k, v => [(k, v)]
  | (k', v') :: rest, k, v =>
      if k' = k then (k, v) :: rest else (k', v') :: aset rest k v

/-- Update `params[filter_name][param_name] = value`, creating the inner dict when the
filter key is absent (as `_grid_search_phase` does). -/
def setFP (params : Params) (f p : String) (v : ℚ) : Params :=
  match params with
  | [] => [(f, [(p, v)])]
  | (g, ps) :: rest =>
      if g = f then (g, aset ps p v) :: rest else (g, ps) :: setFP rest f p v

/-! ## ScoreFunction (`score_function.py`) -/

/-- Metric snapshot produced by the external `analyze_func`. -/
abbrev MetricsSnapshot := String → Option ℚ

/-- The `HIGHER_IS_BETTER` set from `score_function.py`. -/
def HIGHER_IS_BETTER : List String :=
  ["snr", "snr_rms", "line_correlation", "edge_sharpness", "edge_coherence"]

/-- The `CRITICAL_METRICS` set from `score_function.py`. -/
def CRITICAL_METRICS : List String :=
  ["edge_sharpness", "noise_std_mad", "abnormal_lines_count"]

/-- The `DEFAULT_WEIGHTS` table from `score_function.py` in source order. -/
def DEFAULT_WEIGHTS : List (String × ℚ) :=
  [("snr", 2), ("snr_rms", 1),
   ("noise_std", 1/2), ("noise_std_mad", 1), ("noise_std_laplacian", 3/2),
   ("linewise_h", 1), ("linewise_v", 1), ("line_correlation", 1/2),
   ("abnormal_lines_count", 1),
   ("edge_noise", 1), ("edge_sharpness", 5), ("gradient_variance", 1/2),
   ("edge_coherence", 1),
   ("total_spectral_energy", 3/10), ("psd_peaks_count", 3/10)]

/-- The `ScoreFunction` instance state: weight table plus the three penalty
knobs set in `ScoreFunction.__init__` (defaults 5.0 / 20.0 / 50.0).  Settings
loading (`_load_saved_settings`) is an external collaborator that merely
changes these fields, so it needs no own embedding. -/
structure ScoreFn where
  weights : List (String × ℚ) := DEFAULT_WEIGHTS
  negative_penalty_factor : ℚ := 5
  critical_penalty_factor : ℚ := 20
  negative_count_penalty : ℚ := 50

/-- The near-zero baseline guard `1e-10` from both scoring loops. -/
def scoreEps : ℚ := 1 / 10 ^ 10

/-- Direction-aware percent improvement of one metric (identical lines in
`calculate_score` and `quick_score`). -/
def improvementOf (name : String) (ov pv : ℚ) : ℚ :=
  if name ∈ HIGHER_IS_BETTER then (pv - ov) / |ov| * 100
  else (ov - pv) / |ov| * 100

/-- The `ScoreResult` dataclass from `score_function.py`. -/
structure ScoreResult where
  total_score : ℚ
  metric_scores : List (String × ℚ)
  improvements : List (String × ℚ)
  penalty : ℚ
  negative_count : ℕ

/-- The per-metric accumulation loop of `ScoreFunction.calculate_score`
(everything before the final count penalty), parameterised by the critical
and ordinary penalty factors.  Structural recursion over the weight list
computes the same sums as Python's in-order `+=` accumulation; the
`metric_scores` / `improvements` lists come out in iteration order. -/
def calcLoop (cpf npf : ℚ) (o p : MetricsSnapshot) :
    List (String × ℚ) → ScoreResult
  | [] => ⟨0, [], [], 0, 0⟩
  | (name, w) :: rest =>
      let acc := calcLoop cpf npf o p rest
      match o name, p name with
      | some ov, some pv =>
          if |ov| < scoreEps then acc
          else
            let improvement := improvementOf name ov pv
            let score := w * improvement
            if improvement < 0 then
              let pf := if name ∈ CRITICAL_METRICS then cpf else npf
              let pa := |score| * pf
              ⟨acc.total_score + -pa, (name, -pa) :: acc.metric_scores,
               (name, improvement) :: acc.improvements, acc.penalty + pa,
               acc.negative_count + 1⟩
            else
              ⟨acc.total_score + score, (name, score) :: acc.metric_scores,
               (name, improvement) :: acc.improvements, acc.penalty,
               acc.negative_count⟩
      | _, _ => acc

/-- Method `ScoreFunction.calculate_score`: per-metric loop followed by the flat
per-negative-count penalty. -/
def calculate_score (sf : ScoreFn) (o p : MetricsSnapshot) : ScoreResult :=
  let acc := calcLoop sf.critical_penalty_factor sf.negative_penalty_factor
    o p sf.weights
  if 0 < acc.negative_count then
    { acc with
      total_score :=
        acc.total_score - acc.negative_count * sf.negative_count_penalty,
      penalty := acc.penalty + acc.negative_count * sf.negative_count_penalty }
  else acc

/-- The per-metric accumulation loop of `ScoreFunction.quick_score`:
running `(total_score, negative_count)`. -/
def quickLoop (cpf npf : ℚ) (o p : MetricsSnapshot) :
    List (String × ℚ) → ℚ × ℕ
  | [] => (0, 0)
  | (name, w) :: rest =>
      let acc := quickLoop cpf npf o p rest
      match o name, p name with
      | some ov, some pv =>
          if |ov| < scoreEps then acc
          else
            let improvement := improvementOf name ov pv
            let score := w * improvement
            if improvement < 0 then
              let pf := if name ∈ CRITICAL_METRICS then cpf else npf
              (acc.1 + -(|score| * pf), acc.2 + 1)
            else (acc.1 + score, acc.2)
      | _, _ => acc

/-- Method `ScoreFunction.quick_score`: fast mode returning only the scalar total. -/
def quick_score (sf : ScoreFn) (o p : MetricsSnapshot) : ℚ :=
  let acc := quickLoop sf.critical_penalty_factor sf.negative_penalty_factor
    o p sf.weights
  if 0 < acc.2 then acc.1 - acc.2 * sf.negative_count_penalty else acc.1

/-- A `ScoreFunction` configured with the single weight `snr = 2.0` and the
constructor-default penalty knobs (5.0 / 20.0 / 50.0). -/
def snrOnlyScore : ScoreFn := { weights := [("snr", 2)] }

/-- A metric snapshot containing only the metric `snr`. -/
def snrSnapshot (v : ℚ) : MetricsSnapshot :=
  fun s => if s = "snr" then some v else none

/-- The scalar total and the regression count agree between the two scoring
loops. -/
theorem calcLoop_eq_quickLoop (cpf npf : ℚ) (o p : MetricsSnapshot) :
    ∀ ws, (calcLoop cpf npf o p ws).total_score = (quickLoop cpf npf o p ws).1 ∧
      (calcLoop cpf npf o p ws).negative_count = (quickLoop cpf npf o p ws).2
  | [] => ⟨rfl, rfl⟩
  | (name, w) :: rest => by
      obtain ⟨ih1, ih2⟩ := calcLoop_eq_quickLoop cpf npf o p rest
      simp only [calcLoop, quickLoop]
      cases o name <;> cases p name <;> simp_all <;> split_ifs <;> simp_all

/-- The metric named by a weight entry is skipped by both scoring loops:
it is absent from one of the snapshots, or its baseline magnitude is below
the epsilon guard. -/
def skippedMetric (o p : MetricsSnapshot) (name : String) : Prop :=
  o name = none ∨ p name = none ∨ ∃ ov, o name = some ov ∧ |ov| < scoreEps

theorem quickLoop_skip_head (cpf npf : ℚ) (o p : MetricsSnapshot) {name : String}
    (w : ℚ) (h : skippedMetric o p name) (ws : List (String × ℚ)) :
    quickLoop cpf npf o p ((name, w) :: ws) = quickLoop cpf npf o p ws := by
  simp only [quickLoop]
  rcases h with h | h | ⟨ov, h1, h2⟩
  · rw [h]
  · rw [h]; cases o name <;> rfl
  · rw [h1]; cases p name <;> simp [h2]

theorem calcLoop_skip_head (cpf npf : ℚ) (o p : MetricsSnapshot) {name : String}
    (w : ℚ) (h : skippedMetric o p name) (ws : List (String × ℚ)) :
    calcLoop cpf npf o p ((name, w) :: ws) = calcLoop cpf npf o p ws := by
  simp only [calcLoop]
  rcases h with h | h | ⟨ov, h1, h2⟩
  · rw [h]
  · rw [h]; cases o name <;> rfl
  · rw [h1]; cases p name <;> simp [h2]

theorem quickLoop_skip (cpf npf : ℚ) (o p : MetricsSnapshot) {name : String}
    (w : ℚ) (h : skippedMetric o p name) :
    ∀ ws1 ws2, quickLoop cpf npf o p (ws1 ++ (name, w) :: ws2) =
      quickLoop cpf npf o p (ws1 ++ ws2)
  | [], ws2 => quickLoop_skip_head cpf npf o p w h ws2
  | (n, w') :: ws1, ws2 => by
      simp only [List.cons_append, quickLoop, List.append_eq,
        quickLoop_skip cpf npf o p w h ws1 ws2]

theorem calcLoop_skip (cpf npf : ℚ) (o p : MetricsSnapshot) {name : String}
    (w : ℚ) (h : skippedMetric o p name) :
    ∀ ws1 ws2, calcLoop cpf npf o p (ws1 ++ (name, w) :: ws2) =
      calcLoop cpf npf o p (ws1 ++ ws2)
  | [], ws2 => calcLoop_skip_head cpf npf o p w h ws2
  | (n, w') :: ws1, ws2 => by
      simp only [List.cons_append, calcLoop, List.append_eq,
        calcLoop_skip cpf npf o p w h ws1 ws2]

/-- C3: with weight `snr = 2.0`, negative penalty factor 5.0 and
per-negative-count penalty 50, and snapshots containing only `snr`:
`quick_score {snr:10} {snr:12} = 40` (improvement +20 percent, contribution
+40, no penalty) and `quick_score {snr:10} {snr:8} = -250` (improvement -20
percent, penalised contribution -200, plus the flat -50 for one regressed
metric). -/
theorem C3_quick_score_scenario :
    quick_score snrOnlyScore (snrSnapshot 10) (snrSnapshot 12) = 40 ∧
    quick_score snrOnlyScore (snrSnapshot 10) (snrSnapshot 8) = -250 := by
  refine ⟨?_, ?_⟩ <;> with_unfolding_all decide

/-- C4: for every pair of metric snapshots and every weight/penalty
configuration, the detailed mode and the fast mode of `ScoreFunction` agree
on the scalar total:
`(calculate_score o p).total_score = quick_score o p`. -/
theorem C4_calculate_score_total_eq_quick_score (sf : ScoreFn)
    (o p : MetricsSnapshot) :
    (calculate_score sf o p).total_score = quick_score sf o p := by
  obtain ⟨h1, h2⟩ := calcLoop_eq_quickLoop sf.critical_penalty_factor
    sf.negative_penalty_factor o p sf.weights
  simp only [calculate_score, quick_score]
  rw [h2]
  split_ifs <;> simp [h1, h2]

/-- C9: in both scoring modes, a weighted metric that is absent from either
snapshot, or whose baseline magnitude is below the epsilon guard, contributes
nothing: removing its weight entry changes neither the total score, nor the
accumulated penalty, nor the regressed-metric count, for every weight table
(the entry may sit anywhere in it) and every pair of snapshots. -/
theorem C9_skipped_metric_contributes_nothing (sf : ScoreFn)
    (ws1 ws2 : List (String × ℚ)) (name : String) (w : ℚ)
    (o p : MetricsSnapshot) (h : skippedMetric o p name) :
    quick_score { sf with weights := ws1 ++ (name, w) :: ws2 } o p =
      quick_score { sf with weights := ws1 ++ ws2 } o p ∧
    (calculate_score { sf with weights := ws1 ++ (name, w) :: ws2 } o p).total_score =
      (calculate_score { sf with weights := ws1 ++ ws2 } o p).total_score ∧
    (calculate_score { sf with weights := ws1 ++ (name, w) :: ws2 } o p).penalty =
      (calculate_score { sf with weights := ws1 ++ ws2 } o p).penalty ∧
    (calculate_score { sf with weights := ws1 ++ (name, w) :: ws2 } o p).negative_count =
      (calculate_score { sf with weights := ws1 ++ ws2 } o p).negative_count := by
  have hq := quickLoop_skip sf.critical_penalty_factor sf.negative_penalty_factor
    o p w h ws1 ws2
  have hc := calcLoop_skip sf.critical_penalty_factor sf.negative_penalty_factor
    o p w h ws1 ws2
  simp only [quick_score, calculate_score]
  rw [hq, hc]
  simp

/-- Witness for C9 at a concrete input: the weight entry `("snrx", 3)` names
a metric absent from both snapshots, so dropping it leaves the quick score
unchanged. -/
theorem C9_skipped_metric_contributes_nothing_witness :
    quick_score { snrOnlyScore with weights := [("snrx", 3), ("snr", 2)] }
        (snrSnapshot 10) (snrSnapshot 12) =
      quick_score { snrOnlyScore with weights := [("snr", 2)] }
        (snrSnapshot 10) (snrSnapshot 12) :=
  (C9_skipped_metric_contributes_nothing snrOnlyScore [] [("snr", 2)] "snrx" 3
    (snrSnapshot 10) (snrSnapshot 12) (Or.inl (by decide))).1

/-! ## ParameterBounds registry and OptimizerBase utilities
(`optimizer_base.py`) -/

/-- Bounds table: filter name → parameter name → `(min, max, step)`. -/
abbrev BoundsTable := List (String × List (String × (ℚ × ℚ × ℚ)))

/-- The static `PARAM_BOUNDS` registry from `optimizer_base.py`. -/
def PARAM_BOUNDS : BoundsTable :=
  [("Linewise", [("window_size", (3, 31, 2)), ("strength", (0, 1, 1/20))]),
   ("Notch", [("center_freq", (1/10, 1/2, 1/20)),
              ("bandwidth", (1/100, 1/5, 1/50)),
              ("num_notches", (1, 5, 1))]),
   ("Anisotropic", [("iterations", (5, 30, 5)), ("kappa", (10, 100, 10)),
                    ("gamma", (1/20, 1/4, 1/20))]),
   ("Bilateral", [("d", (3, 15, 2)), ("sigmaColor", (10, 100, 10)),
                  ("sigmaSpace", (10, 100, 10))]),
   ("NLM", [("h", (1/2, 15, 1/2)), ("templateWindowSize", (3, 11, 2)),
            ("searchWindowSize", (7, 21, 2))]),
   ("Wavelet", [("sigma", (1/10, 2, 1/10))]),
   ("Fourier", [("cutoff", (1/10, 9/10, 1/10)), ("order", (1, 8, 1)),
                ("bandwidth", (1/20, 3/10, 1/20))])]

/-- Method `OptimizerBase._get_param_range`: two-level bounds lookup with the
permissive default range `(0.0, 1.0, 0.1)` for unknown pairs. -/
def get_param_range (bounds : BoundsTable) (f p : String) : ℚ × ℚ × ℚ :=
  match alookup2 bounds f p with
  | some r => r
  | none => (0, 1, 1/10)

/-- Method `OptimizerBase._clip_param`: `max(min_val, min(max_val, value))`. -/
def clip_param (bounds : BoundsTable) (f p : String) (v : ℚ) : ℚ :=
  max (get_param_range bounds f p).1 (min (get_param_range bounds f p).2.1 v)

/-- Executable check that every range entry of a bounds table is ordered
(`min ≤ max`). -/
def orderedBoundsB (bounds : BoundsTable) : Bool :=
  bounds.all fun fps => fps.2.all fun pr => decide (pr.2.1 ≤ pr.2.2.1)

theorem alookup_mem {α : Type} :
    ∀ (l : List (String × α)) (k : String) (v : α),
      alookup l k = some v → (k, v) ∈ l := by
  intro l
  induction l with
  | nil => intro k v h; simp [alookup] at h
  | cons hd tl ih =>
      intro k v h
      obtain ⟨k', v'⟩ := hd
      rw [alookup] at h
      split_ifs at h with hk
      · obtain rfl := Option.some.inj h
        subst hk
        exact List.mem_cons_self _ _
      · exact List.mem_cons_of_mem _ (ih k v h)

theorem get_param_range_ordered (bounds : BoundsTable)
    (h : orderedBoundsB bounds = true) (f p : String) :
    (get_param_range bounds f p).1 ≤ (get_param_range bounds f p).2.1 := by
  unfold get_param_range
  rcases hl : alookup2 bounds f p with _ | r
  · norm_num
  · unfold alookup2 at hl
    rcases hf : alookup bounds f with _ | ps
    · rw [hf] at hl; simp at hl
    · rw [hf] at hl
      have hmf := alookup_mem bounds f ps hf
      have hmp := alookup_mem ps p r hl
      rw [orderedBoundsB, List.all_eq_true] at h
      have h2 := h (f, ps) hmf
      rw [List.all_eq_true] at h2
      exact of_decide_eq_true (h2 (p, r) hmp)

/-- C8: for every bounds entry of the registry (and the permissive default
used for unknown pairs) and every rational input value, `_clip_param`
returns a value within `[min, max]`.  Python float specials (NaN) are
outside the rational idealisation; for them the source's
`max(min_val, min(max_val, value))` returns `max_val`, which also lies in
range. -/
theorem C8_clip_param_within_bounds (f p : String) (v : ℚ) :
    (get_param_range PARAM_BOUNDS f p).1 ≤ clip_param PARAM_BOUNDS f p v ∧
    clip_param PARAM_BOUNDS f p v ≤ (get_param_range PARAM_BOUNDS f p).2.1 := by
  have hord := get_param_range_ordered PARAM_BOUNDS
    (by with_unfolding_all decide) f p
  unfold clip_param
  exact ⟨le_max_left _ _, max_le hord (min_le_left _ _)⟩

/-! ## Numeric helpers: Python `round` and `int`, `range`, `np.linspace` -/

/-- Python 3 `round` to the nearest integer with ties to even (banker's
rounding), as applied to integer-typed candidates in `hill_climbing.py`. -/
def pyRound (q : ℚ) : ℤ :=
  if q - ⌊q⌋ < 1/2 then ⌊q⌋
  else if 1/2 < q - ⌊q⌋ then ⌊q⌋ + 1
  else if ⌊q⌋ % 2 = 0 then ⌊q⌋ else ⌊q⌋ + 1

/-- Python `int()`: truncation toward zero. -/
def pyInt (q : ℚ) : ℤ := if 0 ≤ q then ⌊q⌋ else ⌈q⌉

/-- Python `range(lo, hi, step)` for a positive step. -/
def rangeList (lo hi stp : ℤ) : List ℤ :=
  (List.range (((hi - lo + stp - 1) / stp).toNat)).map
    fun (i : ℕ) => lo + stp * (i : ℤ)

/-- Function `np.linspace(a, b, n)`: `n` evenly spaced points from `a` to `b`
inclusive (`[a]` for `n = 1`, `[]` for `n = 0`). -/
def linspace (a b : ℚ) (n : ℕ) : List ℚ :=
  if n = 1 then [a]
  else (List.range n).map fun (i : ℕ) => a + (b - a) * (i : ℚ) / ((n : ℚ) - 1)

/-- Function `np.linspace(0, last, n, dtype=int)`: evenly spaced sample indices,
truncated to integers, used to subsample integer grids. -/
def linspaceIdx (last n : ℕ) : List ℕ :=
  if n = 1 then [0]
  else (List.range n).map fun (i : ℕ) =>
    (pyInt ((last : ℚ) * (i : ℚ) / ((n : ℚ) - 1))).toNat

/-! ## Grid value generation (`grid_search.py`) -/

/-- Integer-typed parameter names listed in
`GridSearchOptimizer._generate_grid_values`. -/
def gs_integer_params : List String :=
  ["window_size", "iterations", "num_notches", "d",
   "templateWindowSize", "searchWindowSize", "order", "psf_size"]

/-- Odd-only parameter names listed in
`GridSearchOptimizer._generate_grid_values`. -/
def gs_odd_params : List String :=
  ["window_size", "templateWindowSize", "searchWindowSize", "psf_size"]

/-- Method `GridSearchOptimizer._generate_grid_values`: sample `divisions` values of
one parameter, over the full bounds (coarse) or a window of width
`range_factor × fullRange` centred on `center` (fine); integer parameters
enumerate step-aligned values, filter for oddness if required, and subsample
by evenly spaced indices. -/
def generate_grid_values (bounds : BoundsTable) (f p : String)
    (divisions : ℕ) (center : Option ℚ) (range_factor : ℚ) : List ℚ :=
  let r := get_param_range bounds f p
  let sr : ℚ × ℚ :=
    match center with
    | some c =>
        if range_factor < 1 then
          let search_range := (r.2.1 - r.1) * range_factor
          (max r.1 (c - search_range / 2), min r.2.1 (c + search_range / 2))
        else (r.1, r.2.1)
    | none => (r.1, r.2.1)
  if p ∈ gs_integer_params then
    let values := rangeList (pyInt sr.1) (pyInt sr.2 + 1) (max 1 (pyInt r.2.2))
    let values :=
      if p ∈ gs_odd_params then values.filter (fun v => decide (v % 2 = 1))
      else values
    let values :=
      if divisions < values.length then
        (linspaceIdx (values.length - 1) divisions).map
          fun (i : ℕ) => values.getD i 0
      else values
    values.map fun (v : ℤ) => (v : ℚ)
  else
    linspace sr.1 sr.2 divisions

/-! ## Hill-climbing candidate generation (`hill_climbing.py`) -/

/-- Integer-typed parameter names listed in `HillClimbingOptimizer.optimize`. -/
def hc_integer_params : List String :=
  ["window_size", "iterations", "num_notches", "d",
   "templateWindowSize", "searchWindowSize", "order"]

/-- Odd-only parameter names listed in `HillClimbingOptimizer.optimize`. -/
def hc_odd_params : List String :=
  ["window_size", "templateWindowSize", "searchWindowSize"]

/-- One candidate value in `HillClimbingOptimizer.optimize`: step in one
direction from the current value, clip to bounds, then round to an integer
and force oddness for the constrained parameter names. -/
def hc_candidate (bounds : BoundsTable) (f p : String) (current step : ℚ)
    (dir : ℤ) : ℚ :=
  let v := clip_param bounds f p (current + dir * step)
  if p ∈ hc_integer_params then
    let n := pyRound v
    let n := if p ∈ hc_odd_params then (if n % 2 = 0 then n + 1 else n) else n
    (n : ℚ)
  else v

/-- A rational that is (the embedding of) an odd integer. -/
def isOddInt (q : ℚ) : Prop := ∃ n : ℤ, q = ((2 * n + 1 : ℤ) : ℚ)

theorem isOddInt_of_emod {m : ℤ} (h : m % 2 = 1) : isOddInt (m : ℚ) :=
  ⟨m / 2, by rw [Int.cast_inj]; omega⟩

theorem linspaceIdx_le {last n i : ℕ} (h : i ∈ linspaceIdx last n) :
    i ≤ last := by
  unfold linspaceIdx at h
  split_ifs at h with h1
  · simp only [List.mem_singleton] at h
    omega
  · rw [List.mem_map] at h
    obtain ⟨j, hj, rfl⟩ := h
    rw [List.mem_range] at hj
    have hn2 : 2 ≤ n := by omega
    have hcast : (2 : ℚ) ≤ (n : ℚ) := by exact_mod_cast hn2
    have hden : (0 : ℚ) < (n : ℚ) - 1 := by linarith
    have hj' : (j : ℚ) ≤ (n : ℚ) - 1 := by
      have : (j : ℚ) + 1 ≤ (n : ℚ) := by exact_mod_cast Nat.succ_le_of_lt hj
      linarith
    have hq : (0 : ℚ) ≤ (last : ℚ) * j / ((n : ℚ) - 1) :=
      div_nonneg (by positivity) (le_of_lt hden)
    have hle : (last : ℚ) * j / ((n : ℚ) - 1) ≤ (last : ℚ) := by
      rw [div_le_iff₀ hden]
      exact mul_le_mul_of_nonneg_left hj' (by positivity)
    unfold pyInt
    rw [if_pos hq]
    have hfl : ⌊(last : ℚ) * j / ((n : ℚ) - 1)⌋ ≤ (last : ℤ) := by
      calc ⌊(last : ℚ) * j / ((n : ℚ) - 1)⌋ ≤ ⌊(last : ℚ)⌋ :=
            Int.floor_le_floor hle
        _ = (last : ℤ) := Int.floor_natCast last
    omega

theorem getD_mem_of_lt {α : Type} (l : List α) (i : ℕ) (d : α)
    (h : i < l.length) : l.getD i d ∈ l := by
  rw [List.getD_eq_getElem l d h]
  exact List.getElem_mem h

/-- C5: for every odd-constrained integer parameter (for example a window
size bounded `(3, 31, 2)`), every candidate value generated by either
optimizer — hill climbing's plus/minus-step candidate for any current value,
step and direction, and every enumerated grid value of grid search in both
the coarse phase (`center = none`) and the fine phase — is an odd integer. -/
theorem C5_odd_constrained_candidates_are_odd (bounds : BoundsTable)
    (f p : String) (current step : ℚ) (dir : ℤ) (divisions : ℕ)
    (center : Option ℚ) (range_factor : ℚ) :
    (p ∈ hc_odd_params → isOddInt (hc_candidate bounds f p current step dir)) ∧
    (p ∈ gs_odd_params →
      ∀ v ∈ generate_grid_values bounds f p divisions center range_factor,
        isOddInt v) := by
  constructor
  · intro hodd
    have hint : p ∈ hc_integer_params := by
      fin_cases hodd <;> decide
    unfold hc_candidate
    simp only [if_pos hint, if_pos hodd]
    generalize pyRound (clip_param bounds f p (current + ↑dir * step)) = m
    split_ifs with h2
    · exact isOddInt_of_emod (by omega)
    · exact isOddInt_of_emod (by omega)
  · intro hodd v hv
    have hint : p ∈ gs_integer_params := by
      fin_cases hodd <;> decide
    unfold generate_grid_values at hv
    simp only [if_pos hint, if_pos hodd, List.mem_map] at hv
    obtain ⟨m, hm, rfl⟩ := hv
    refine isOddInt_of_emod ?_
    generalize hbase : rangeList _ _ _ = base at hm
    set flt := base.filter (fun v => decide (v % 2 = 1)) with hflt
    split_ifs at hm with hlen
    · rw [List.mem_map] at hm
      obtain ⟨i, hi, rfl⟩ := hm
      have hile := linspaceIdx_le hi
      have hlt : i < flt.length := by omega
      exact of_decide_eq_true (List.mem_filter.mp (getD_mem_of_lt flt i 0 hlt)).2
    · exact of_decide_eq_true (List.mem_filter.mp hm).2

/-- Witness for C5 at concrete inputs: `window_size` (bounded `(3, 31, 2)`
in the registry, odd-constrained) receives odd candidates from both
generators. -/
theorem C5_odd_constrained_candidates_are_odd_witness :
    isOddInt (hc_candidate PARAM_BOUNDS "Linewise" "window_size" 5 2 1) ∧
    ∀ v ∈ generate_grid_values PARAM_BOUNDS "Linewise" "window_size" 3 none 1,
      isOddInt v :=
  ⟨(C5_odd_constrained_candidates_are_odd PARAM_BOUNDS "Linewise" "window_size"
      5 2 1 3 none 1).1 (by decide),
   (C5_odd_constrained_candidates_are_odd PARAM_BOUNDS "Linewise" "window_size"
      5 2 1 3 none 1).2 (by decide)⟩

/-! ## HillClimbingOptimizer run (`hill_climbing.py`) -/

/-- Value read `best_params[filter_name][param_name]` (always guarded by a
membership check in the source, so the default is never reached there). -/
def getFP (params : Params) (f p : String) : ℚ := (alookup2 params f p).getD 0

/-- Constructor configuration of `HillClimbingOptimizer`. -/
structure HCConfig where
  param_bounds : BoundsTable := PARAM_BOUNDS
  max_iterations : ℕ := 100
  step_decay : ℚ := 19/20
  min_step_factor : ℚ := 1/10

/-- Step-multiplier table `step_multipliers`, one entry per
`(filter, param)` of the pipeline with bounds; all initialised to 1.0. -/
def init_multipliers (bounds : BoundsTable) (pipeline : List String) :
    List (String × List (String × ℚ)) :=
  pipeline.map fun f =>
    (f, ((alookup bounds f).getD []).map fun pr => (pr.1, (1 : ℚ)))

/-- Read `step_multipliers[filter_name][param_name]`. -/
def getM (mults : List (String × List (String × ℚ))) (f p : String) : ℚ :=
  (alookup2 mults f p).getD 1

/-- Update `step_multipliers[filter_name][param_name]` in place. -/
def updM (mults : List (String × List (String × ℚ))) (f p : String)
    (g : ℚ → ℚ) : List (String × List (String × ℚ)) :=
  mults.map fun fps =>
    if fps.1 = f then
      (fps.1, fps.2.map fun pm => if pm.1 = p then (pm.1, g pm.2) else pm)
    else fps

/-- Decay every step multiplier by `step_decay`, floored at
`min_step_factor` (the no-improvement branch of the sweep). -/
def decay_all (cfg : HCConfig) (mults : List (String × List (String × ℚ))) :
    List (String × List (String × ℚ)) :=
  mults.map fun fps =>
    (fps.1, fps.2.map fun pm =>
      (pm.1, max cfg.min_step_factor (pm.2 * cfg.step_decay)))

/-- State carried through one sweep over all `(filter, param)` pairs. -/
structure SweepState where
  best_params : Params
  best_score : ℚ
  multipliers : List (String × List (String × ℚ))
  improved : Bool
  checks : ℕ

/-- Accept an improving candidate: store it, take its score as the new best,
and raise that pair's step multiplier by 10 percent, capped at 1.0. -/
def acceptParam (f p : String) (v newScore : ℚ) (st : SweepState) :
    SweepState :=
  { best_params := setFP st.best_params f p v
    best_score := newScore
    multipliers := updM st.multipliers f p fun m => min 1 (m * (11/10))
    improved := true
    checks := st.checks }

/-- The direction loop for one `(filter, param)` pair: try `+step` then
`-step`, skip a candidate equal to the current value, and accept the first
candidate whose evaluation beats the best score. -/
def try_param (cfg : HCConfig) (ev : Params → ℚ) (f p : String)
    (st : SweepState) : SweepState :=
  let step := (get_param_range cfg.param_bounds f p).2.2 * getM st.multipliers f p
  let current_val := getFP st.best_params f p
  let v1 := hc_candidate cfg.param_bounds f p current_val step 1
  if v1 ≠ current_val ∧ ev (setFP st.best_params f p v1) > st.best_score then
    acceptParam f p v1 (ev (setFP st.best_params f p v1)) st
  else
    let v2 := hc_candidate cfg.param_bounds f p current_val step (-1)
    if v2 ≠ current_val ∧ ev (setFP st.best_params f p v2) > st.best_score then
      acceptParam f p v2 (ev (setFP st.best_params f p v2)) st
    else st

/-- The parameter loop of the sweep for one filter: iterate the bounded
parameter names, skip those absent from `best_params[filter]`, and break out
of this filter's loop when the cancellation flag reads true. -/
def sweep_params (cfg : HCConfig) (ev : Params → ℚ) (stops : ℕ → Bool)
    (f : String) : List (String × (ℚ × ℚ × ℚ)) → SweepState → SweepState
  | [], st => st
  | (p, _) :: rest, st =>
      if (alookup2 st.best_params f p).isNone then
        sweep_params cfg ev stops f rest st
      else if stops st.checks then { st with checks := st.checks + 1 }
      else
        sweep_params cfg ev stops f rest
          (try_param cfg ev f p { st with checks := st.checks + 1 })

/-- The filter loop of the sweep: skip filters without bounds or absent from
`best_params`. -/
def sweep_filters (cfg : HCConfig) (ev : Params → ℚ) (stops : ℕ → Bool) :
    List String → SweepState → SweepState
  | [], st => st
  | f :: rest, st =>
      match alookup cfg.param_bounds f with
      | none => sweep_filters cfg ev stops rest st
      | some bps =>
          if (alookup st.best_params f).isNone then
            sweep_filters cfg ev stops rest st
          else sweep_filters cfg ev stops rest (sweep_params cfg ev stops f bps st)

/-- State carried across iterations of the optimization `while` loop. -/
structure HCState where
  best_params : Params
  best_score : ℚ
  score_history : List ℚ
  iteration : ℕ
  multipliers : List (String × List (String × ℚ))
  no_improvement_count : ℕ
  checks : ℕ

/-- One body of the `while` loop: a full sweep, then bookkeeping (iteration
count, history append, no-improvement counter and multiplier decay).  The
progress callback is an external void collaborator and is not modelled. -/
def hc_body (cfg : HCConfig) (ev : Params → ℚ) (stops : ℕ → Bool)
    (pipeline : List String) (st : HCState) : HCState :=
  let sst := sweep_filters cfg ev stops pipeline
    ⟨st.best_params, st.best_score, st.multipliers, false, st.checks⟩
  { best_params := sst.best_params
    best_score := sst.best_score
    score_history := st.score_history ++ [sst.best_score]
    iteration := st.iteration + 1
    multipliers := if sst.improved then sst.multipliers
                   else decay_all cfg sst.multipliers
    no_improvement_count := if sst.improved then 0
                            else st.no_improvement_count + 1
    checks := sst.checks }

/-- The `while iteration < max_iterations and not stop` loop, with the
`no_improvement_count >= 10` break.  One unit of fuel per loop body;
`optimize` supplies `max_iterations` fuel, which is enough because every
body raises `iteration` by one. -/
def hc_loop (cfg : HCConfig) (ev : Params → ℚ) (stops : ℕ → Bool)
    (pipeline : List String) : ℕ → HCState → HCState
  | 0, st => st
  | fuel + 1, st =>
      if st.iteration < cfg.max_iterations then
        let c := stops st.checks
        let st1 : HCState := { st with checks := st.checks + 1 }
        if c then st1
        else
          let st2 := hc_body cfg ev stops pipeline st1
          if 10 ≤ st2.no_improvement_count then st2
          else hc_loop cfg ev stops pipeline fuel st2
      else st

/-- Initial loop state of `HillClimbingOptimizer.optimize`: `best_params` is
a copy of the caller's parameters, the initial score seeds both the best
score and the history, and all step multipliers start at 1.0. -/
def hc_init (cfg : HCConfig) (ev : Params → ℚ) (pipeline : List String)
    (current_params : Params) : HCState :=
  ⟨current_params, ev current_params, [ev current_params], 0,
   init_multipliers cfg.param_bounds pipeline, 0, 0⟩

/-- The `OptimizationResult` dataclass from `optimizer_base.py` (the wall-clock
`elapsed_time` field is not representable and is omitted).  `best_score` is
a `WithBot ℚ` because grid search can return `float('-inf')`. -/
structure OptimizationResult where
  best_params : Params
  best_score : WithBot ℚ
  initial_score : ℚ
  iterations : ℕ
  score_history : List (WithBot ℚ)
  improved : Bool

/-- Method `HillClimbingOptimizer.optimize`: run the loop and package the result
with `improved = (best_score > initial_score)`. -/
def hc_optimize (cfg : HCConfig) (ev : Params → ℚ) (stops : ℕ → Bool)
    (pipeline : List String) (current_params : Params) : OptimizationResult :=
  let st := hc_loop cfg ev stops pipeline cfg.max_iterations
    (hc_init cfg ev pipeline current_params)
  { best_params := st.best_params
    best_score := (st.best_score : WithBot ℚ)
    initial_score := ev current_params
    iterations := st.iteration
    score_history := st.score_history.map fun (q : ℚ) => (q : WithBot ℚ)
    improved := decide (st.best_score > ev current_params) }

/-! ## Hill-climbing invariants -/

theorem try_param_best_le (cfg : HCConfig) (ev : Params → ℚ) (f p : String)
    (st : SweepState) : st.best_score ≤ (try_param cfg ev f p st).best_score := by
  simp only [try_param, acceptParam]
  split_ifs with h1 h2
  · exact le_of_lt h1.2
  · exact le_of_lt h2.2
  · exact le_rfl

theorem sweep_params_best_le (cfg : HCConfig) (ev : Params → ℚ)
    (stops : ℕ → Bool) (f : String) :
    ∀ (l : List (String × (ℚ × ℚ × ℚ))) (st : SweepState),
      st.best_score ≤ (sweep_params cfg ev stops f l st).best_score
  | [], _ => le_rfl
  | (p, b) :: rest, st => by
      unfold sweep_params
      split_ifs with h1 h2
      · exact sweep_params_best_le cfg ev stops f rest st
      · exact le_rfl
      · exact le_trans
          (try_param_best_le cfg ev f p { st with checks := st.checks + 1 })
          (sweep_params_best_le cfg ev stops f rest _)

theorem sweep_filters_best_le (cfg : HCConfig) (ev : Params → ℚ)
    (stops : ℕ → Bool) :
    ∀ (l : List String) (st : SweepState),
      st.best_score ≤ (sweep_filters cfg ev stops l st).best_score
  | [], _ => le_rfl
  | f :: rest, st => by
      unfold sweep_filters
      cases alookup cfg.param_bounds f with
      | none => exact sweep_filters_best_le cfg ev stops rest st
      | some bps =>
          split_ifs with h1
          · exact sweep_filters_best_le cfg ev stops rest st
          · exact le_trans (sweep_params_best_le cfg ev stops f bps st)
              (sweep_filters_best_le cfg ev stops rest _)

/-- Loop invariant for the hill-climbing history: it is a non-decreasing
chain whose entries are all bounded by the current best score. -/
def hcInv (st : HCState) : Prop :=
  st.score_history.Chain' (· ≤ ·) ∧ ∀ x ∈ st.score_history, x ≤ st.best_score

theorem hc_body_inv (cfg : HCConfig) (ev : Params → ℚ) (stops : ℕ → Bool)
    (pipeline : List String) (st : HCState) (h : hcInv st) :
    hcInv (hc_body cfg ev stops pipeline st) := by
  obtain ⟨hchain, hle⟩ := h
  have hmono : st.best_score ≤ (sweep_filters cfg ev stops pipeline
      ⟨st.best_params, st.best_score, st.multipliers, false, st.checks⟩).best_score :=
    sweep_filters_best_le cfg ev stops pipeline _
  constructor
  · show (st.score_history ++ [_]).Chain' (· ≤ ·)
    rw [List.chain'_append]
    refine ⟨hchain, List.chain'_singleton _, ?_⟩
    intro x hx y hy
    obtain ⟨hne, rfl⟩ := List.mem_getLast?_eq_getLast hx
    have hxm : st.score_history.getLast hne ∈ st.score_history :=
      List.getLast_mem hne
    have hy' : (sweep_filters cfg ev stops pipeline
        ⟨st.best_params, st.best_score, st.multipliers, false, st.checks⟩).best_score = y := by
      simpa using hy
    subst hy'
    exact le_trans (hle _ hxm) hmono
  · intro x hx
    rcases List.mem_append.mp hx with hx | hx
    · exact le_trans (hle x hx) hmono
    · rw [List.mem_singleton] at hx
      subst hx
      exact le_rfl

theorem hc_loop_inv (cfg : HCConfig) (ev : Params → ℚ) (stops : ℕ → Bool)
    (pipeline : List String) :
    ∀ (fuel : ℕ) (st : HCState), hcInv st →
      hcInv (hc_loop cfg ev stops pipeline fuel st)
  | 0, _, h => h
  | fuel + 1, st, h => by
      simp only [hc_loop]
      split_ifs with h1 h2 h3
      · exact h
      · exact hc_body_inv cfg ev stops pipeline _ h
      · exact hc_loop_inv cfg ev stops pipeline fuel _
          (hc_body_inv cfg ev stops pipeline _ h)
      · exact h

theorem hc_init_inv (cfg : HCConfig) (ev : Params → ℚ) (pipeline : List String)
    (current_params : Params) : hcInv (hc_init cfg ev pipeline current_params) := by
  refine ⟨List.chain'_singleton _, ?_⟩
  intro x hx
  simp only [hc_init, List.mem_singleton] at hx
  exact le_of_eq hx

/-- All step multipliers of the table lie in the closed interval
`[min_step_factor, 1]`. -/
def multsIn (cfg : HCConfig) (mults : List (String × List (String × ℚ))) :
    Prop :=
  ∀ fps ∈ mults, ∀ pm ∈ fps.2, cfg.min_step_factor ≤ pm.2 ∧ pm.2 ≤ 1

theorem init_multipliers_one (bounds : BoundsTable) (pipeline : List String) :
    ∀ fps ∈ init_multipliers bounds pipeline, ∀ pm ∈ fps.2, pm.2 = 1 := by
  intro fps hfps pm hpm
  simp only [init_multipliers, List.mem_map] at hfps
  obtain ⟨f, hf, rfl⟩ := hfps
  simp only [List.mem_map] at hpm
  obtain ⟨pr, hpr, rfl⟩ := hpm
  rfl

theorem multsIn_init (cfg : HCConfig) (pipeline : List String)
    (h1 : cfg.min_step_factor ≤ 1) :
    multsIn cfg (init_multipliers cfg.param_bounds pipeline) := by
  intro fps hfps pm hpm
  rw [init_multipliers_one _ _ fps hfps pm hpm]
  exact ⟨h1, le_rfl⟩

theorem multsIn_updM (cfg : HCConfig)
    (mults : List (String × List (String × ℚ))) (f p : String) (g : ℚ → ℚ)
    (hg : ∀ m, cfg.min_step_factor ≤ m ∧ m ≤ 1 →
      cfg.min_step_factor ≤ g m ∧ g m ≤ 1)
    (h : multsIn cfg mults) : multsIn cfg (updM mults f p g) := by
  intro fps hfps pm hpm
  simp only [updM, List.mem_map] at hfps
  obtain ⟨fps0, hfps0, rfl⟩ := hfps
  by_cases hf : fps0.1 = f
  · rw [if_pos hf] at hpm
    simp only [List.mem_map] at hpm
    obtain ⟨pm0, hpm0, rfl⟩ := hpm
    by_cases hp : pm0.1 = p
    · rw [if_pos hp]
      exact hg pm0.2 (h fps0 hfps0 pm0 hpm0)
    · rw [if_neg hp]
      exact h fps0 hfps0 pm0 hpm0
  · rw [if_neg hf] at hpm
    exact h fps0 hfps0 pm hpm

theorem multsIn_decay (cfg : HCConfig)
    (mults : List (String × List (String × ℚ)))
    (h0 : 0 ≤ cfg.min_step_factor) (h1 : cfg.min_step_factor ≤ 1)
    (hd1 : cfg.step_decay ≤ 1)
    (h : multsIn cfg mults) : multsIn cfg (decay_all cfg mults) := by
  intro fps hfps pm hpm
  simp only [decay_all, List.mem_map] at hfps
  obtain ⟨fps0, hfps0, rfl⟩ := hfps
  simp only [List.mem_map] at hpm
  obtain ⟨pm0, hpm0, rfl⟩ := hpm
  obtain ⟨hl, hu⟩ := h fps0 hfps0 pm0 hpm0
  refine ⟨le_max_left _ _, max_le h1 ?_⟩
  have hm0 : 0 ≤ pm0.2 := le_trans h0 hl
  calc pm0.2 * cfg.step_decay ≤ pm0.2 * 1 :=
        mul_le_mul_of_nonneg_left hd1 hm0
    _ = pm0.2 := mul_one _
    _ ≤ 1 := hu

theorem accept_update_in (cfg : HCConfig)
    (h0 : 0 ≤ cfg.min_step_factor) (h1 : cfg.min_step_factor ≤ 1) :
    ∀ m, cfg.min_step_factor ≤ m ∧ m ≤ 1 →
      cfg.min_step_factor ≤ min 1 (m * (11/10)) ∧ min 1 (m * (11/10)) ≤ 1 := by
  intro m hm
  obtain ⟨hl, _⟩ := hm
  have hm0 : 0 ≤ m := le_trans h0 hl
  refine ⟨le_min h1 ?_, min_le_left _ _⟩
  exact le_trans hl (le_mul_of_one_le_right hm0 (by norm_num))

theorem try_param_multsIn (cfg : HCConfig) (ev : Params → ℚ) (f p : String)
    (st : SweepState) (h0 : 0 ≤ cfg.min_step_factor)
    (h1 : cfg.min_step_factor ≤ 1) (h : multsIn cfg st.multipliers) :
    multsIn cfg (try_param cfg ev f p st).multipliers := by
  simp only [try_param, acceptParam]
  split_ifs with ha hb
  · exact multsIn_updM cfg _ f p _ (accept_update_in cfg h0 h1) h
  · exact multsIn_updM cfg _ f p _ (accept_update_in cfg h0 h1) h
  · exact h

theorem sweep_params_multsIn (cfg : HCConfig) (ev : Params → ℚ)
    (stops : ℕ → Bool) (f : String) (h0 : 0 ≤ cfg.min_step_factor)
    (h1 : cfg.min_step_factor ≤ 1) :
    ∀ (l : List (String × (ℚ × ℚ × ℚ))) (st : SweepState),
      multsIn cfg st.multipliers →
      multsIn cfg (sweep_params cfg ev stops f l st).multipliers
  | [], _, h => h
  | (p, b) :: rest, st, h => by
      unfold sweep_params
      split_ifs with ha hb
      · exact sweep_params_multsIn cfg ev stops f h0 h1 rest st h
      · exact h
      · exact sweep_params_multsIn cfg ev stops f h0 h1 rest _
          (try_param_multsIn cfg ev f p _ h0 h1 h)

theorem sweep_filters_multsIn (cfg : HCConfig) (ev : Params → ℚ)
    (stops : ℕ → Bool) (h0 : 0 ≤ cfg.min_step_factor)
    (h1 : cfg.min_step_factor ≤ 1) :
    ∀ (l : List String) (st : SweepState),
      multsIn cfg st.multipliers →
      multsIn cfg (sweep_filters cfg ev stops l st).multipliers
  | [], _, h => h
  | f :: rest, st, h => by
      unfold sweep_filters
      cases alookup cfg.param_bounds f with
      | none => exact sweep_filters_multsIn cfg ev stops h0 h1 rest st h
      | some bps =>
          split_ifs with ha
          · exact sweep_filters_multsIn cfg ev stops h0 h1 rest st h
          · exact sweep_filters_multsIn cfg ev stops h0 h1 rest _
              (sweep_params_multsIn cfg ev stops f h0 h1 bps st h)

theorem hc_body_multsIn (cfg : HCConfig) (ev : Params → ℚ) (stops : ℕ → Bool)
    (pipeline : List String) (st : HCState) (h0 : 0 ≤ cfg.min_step_factor)
    (h1 : cfg.min_step_factor ≤ 1) (hd1 : cfg.step_decay ≤ 1)
    (h : multsIn cfg st.multipliers) :
    multsIn cfg (hc_body cfg ev stops pipeline st).multipliers := by
  have hs := sweep_filters_multsIn cfg ev stops h0 h1 pipeline
    ⟨st.best_params, st.best_score, st.multipliers, false, st.checks⟩ h
  simp only [hc_body]
  split_ifs with hi
  · exact hs
  · exact multsIn_decay cfg _ h0 h1 hd1 hs

theorem hc_loop_multsIn (cfg : HCConfig) (ev : Params → ℚ) (stops : ℕ → Bool)
    (pipeline : List String) (h0 : 0 ≤ cfg.min_step_factor)
    (h1 : cfg.min_step_factor ≤ 1) (hd1 : cfg.step_decay ≤ 1) :
    ∀ (fuel : ℕ) (st : HCState), multsIn cfg st.multipliers →
      multsIn cfg (hc_loop cfg ev stops pipeline fuel st).multipliers
  | 0, _, h => h
  | fuel + 1, st, h => by
      simp only [hc_loop]
      split_ifs with ha hb hc
      · exact h
      · exact hc_body_multsIn cfg ev stops pipeline _ h0 h1 hd1 h
      · exact hc_loop_multsIn cfg ev stops pipeline h0 h1 hd1 fuel _
          (hc_body_multsIn cfg ev stops pipeline _ h0 h1 hd1 h)
      · exact h

/-! ## Claims about the hill-climbing run -/

/-- C1 (amended): the `score_history` returned by
`HillClimbingOptimizer.optimize` is non-decreasing for every configuration,
evaluation function, cancellation timing, pipeline and starting parameters;
each appended entry is the running best score.  (The original claim also
asserted this for `GridSearchOptimizer`, which is refuted by
`C1_gs_score_history_decreasing_counterexample`.) -/
theorem C1_hc_score_history_nondecreasing (cfg : HCConfig) (ev : Params → ℚ)
    (stops : ℕ → Bool) (pipeline : List String) (current_params : Params) :
    (hc_optimize cfg ev stops pipeline current_params).score_history.Chain'
      (· ≤ ·) := by
  have hinv := hc_loop_inv cfg ev stops pipeline cfg.max_iterations _
    (hc_init_inv cfg ev pipeline current_params)
  simp only [hc_optimize]
  rw [List.chain'_map]
  exact hinv.1.imp fun a b hab => WithBot.coe_le_coe.mpr hab

/-- C7 (amended): under a sensible configuration
(`0 ≤ min_step_factor ≤ 1` and `0 ≤ step_decay ≤ 1`, as the defaults 0.1 and
0.95 are), every `(filter, param)` step multiplier is initialised to 1.0 and
lies in the closed interval `[min_step_factor, 1.0]` after every loop
iteration of every hill-climbing run: it is increased by 10 percent on an
accepted improvement but capped at 1.0, and decayed by `step_decay` with
floor `min_step_factor` after an improvement-free sweep.  (The original
claim's strict lower bound `multiplier > min_step_factor` is refuted by
`C7_multiplier_reaches_floor_counterexample`: the decay floor
`max(min_step_factor, m * step_decay)` attains `min_step_factor` exactly.)
The quantifier `k` ranges over loop-iteration prefixes of the run, so the
statement covers every intermediate state of `optimize`. -/
theorem C7_step_multipliers_in_closed_range (cfg : HCConfig)
    (ev : Params → ℚ) (stops : ℕ → Bool) (pipeline : List String)
    (current_params : Params)
    (h0 : 0 ≤ cfg.min_step_factor) (h1 : cfg.min_step_factor ≤ 1)
    (hd0 : 0 ≤ cfg.step_decay) (hd1 : cfg.step_decay ≤ 1) :
    (∀ fps ∈ init_multipliers cfg.param_bounds pipeline,
      ∀ pm ∈ fps.2, pm.2 = 1) ∧
    ∀ k, multsIn cfg (hc_loop cfg ev stops pipeline k
      (hc_init cfg ev pipeline current_params)).multipliers := by
  refine ⟨init_multipliers_one _ _, fun k => ?_⟩
  exact hc_loop_multsIn cfg ev stops pipeline h0 h1 hd1 k _
    (multsIn_init cfg pipeline h1)

/-- Witness for C7 at a concrete input: the default configuration satisfies
the hypotheses, and after one iteration the multipliers of a one-filter
pipeline are still within `[0.1, 1]`. -/
theorem C7_step_multipliers_in_closed_range_witness :
    multsIn {} ((hc_loop {} (fun _ => 0) (fun _ => false) ["Linewise"] 1
      (hc_init {} (fun _ => 0) ["Linewise"]
        [("Linewise", [("strength", 1/2)])])).multipliers) :=
  (C7_step_multipliers_in_closed_range {} (fun _ => 0) (fun _ => false)
    ["Linewise"] [("Linewise", [("strength", 1/2)])]
    (by with_unfolding_all decide) (by with_unfolding_all decide)
    (by with_unfolding_all decide) (by with_unfolding_all decide)).2 1

/-- Configuration for the C7 counterexample: one bounded parameter,
`step_decay = 0.5` and `min_step_factor = 0.5`. -/
def hcCfgCx : HCConfig :=
  { param_bounds := [("F", [("a", (0, 1, 1/10))])], max_iterations := 5,
    step_decay := 1/2, min_step_factor := 1/2 }

/-- Counterexample to C7 as stated: with `step_decay = min_step_factor = 0.5`
and a constant evaluation function (no candidate ever improves), the sweep of
the first iteration accepts nothing, so all multipliers are decayed to
`max(0.5, 1.0 * 0.5) = 0.5`, which equals `min_step_factor` — the multiplier
is not strictly above `min_step_factor`, refuting the claimed half-open
interval `(minStepFactor, 1.0]`. -/
theorem C7_multiplier_reaches_floor_counterexample :
    (hc_loop hcCfgCx (fun _ => 0) (fun _ => false) ["F"] 1
      (hc_init hcCfgCx (fun _ => 0) ["F"]
        [("F", [("a", 1/2)])])).multipliers = [("F", [("a", 1/2)])] ∧
    ¬ (hcCfgCx.min_step_factor < 1/2) := by
  refine ⟨?_, ?_⟩
  · with_unfolding_all decide
  · with_unfolding_all decide

/-! ## GridSearchOptimizer run (`grid_search.py`) -/

/-- Constructor configuration of `GridSearchOptimizer`. -/
structure GSConfig where
  param_bounds : BoundsTable := PARAM_BOUNDS
  max_iterations : ℕ := 500
  coarse_divisions : ℕ := 3
  fine_divisions : ℕ := 5
  fine_range_factor : ℚ := 3/10

/-- The `param_grids` construction of `_grid_search_phase`, flattened into
`zip(param_names, param_values)` order: for every pipeline filter with
bounds, every bounded parameter also present in the caller's
`current_params` gets its grid of values (centred on `center_params` when
given, which in the source is only ever the coarse-phase best and always
contains the looked-up key). -/
def build_param_grids (bounds : BoundsTable) (pipeline : List String)
    (current_params : Params) (divisions : ℕ) (center_params : Option Params)
    (range_factor : ℚ) : List ((String × String) × List ℚ) :=
  pipeline.flatMap fun f =>
    match alookup bounds f with
    | none => []
    | some bps =>
        bps.flatMap fun pr =>
          if (alookup2 current_params f pr.1).isSome then
            [((f, pr.1),
              generate_grid_values bounds f pr.1 divisions
                (center_params.map fun cp => getFP cp f pr.1) range_factor)]
          else []

/-- Function `itertools.product(*param_values)`: all combinations in row-major order
(leftmost parameter varies slowest). -/
def cartProd : List (List ℚ) → List (List ℚ)
  | [] => [[]]
  | vs :: rest => vs.flatMap fun v => (cartProd rest).map fun c => v :: c

/-- Write one combination into a copy of `current_params`
(`test_params[f][p] = value` over `zip(param_names, combination)`). -/
def applyCombo (current : Params) :
    List (String × String) → List ℚ → Params
  | (f, p) :: ns, v :: vs => applyCombo (setFP current f p v) ns vs
  | _, _ => current

/-- The evaluation loop of `_grid_search_phase` over the generated
combinations: check the cancellation flag, evaluate, keep the running best
(score and a copy of the parameters), and stop when the iteration budget is
reached.  Returns `(best_params, best_score, iteration, checks)`. -/
def gs_loop (cfg : GSConfig) (ev : Params → ℚ) (stops : ℕ → Bool)
    (current : Params) (names : List (String × String)) :
    List (List ℚ) → Params → WithBot ℚ → ℕ → ℕ →
      Params × WithBot ℚ × ℕ × ℕ
  | [], bp, bs, iter, checks => (bp, bs, iter, checks)
  | combo :: rest, bp, bs, iter, checks =>
      if stops checks then (bp, bs, iter, checks + 1)
      else
        let tp := applyCombo current names combo
        let s := ev tp
        let bp' := if (s : WithBot ℚ) > bs then tp else bp
        let bs' := if (s : WithBot ℚ) > bs then (s : WithBot ℚ) else bs
        if cfg.max_iterations ≤ iter + 1 then (bp', bs', iter + 1, checks + 1)
        else gs_loop cfg ev stops current names rest bp' bs' (iter + 1) (checks + 1)

/-- Method `GridSearchOptimizer._grid_search_phase`: build the grids; if no
parameter qualifies return the caller's parameters with phase score `0.0`
and `0` evaluations, otherwise evaluate the Cartesian product starting from
`best_score = float('-inf')`. -/
def grid_search_phase (cfg : GSConfig) (ev : Params → ℚ) (stops : ℕ → Bool)
    (pipeline : List String) (current_params : Params) (divisions : ℕ)
    (center_params : Option Params) (range_factor : ℚ) (checks : ℕ) :
    Params × WithBot ℚ × ℕ × ℕ :=
  let grids := build_param_grids cfg.param_bounds pipeline current_params
    divisions center_params range_factor
  if grids.isEmpty then (current_params, (0 : WithBot ℚ), 0, checks)
  else
    gs_loop cfg ev stops current_params (grids.map Prod.fst)
      (cartProd (grids.map Prod.snd)) current_params ⊥ 0 checks

/-- Method `GridSearchOptimizer._create_result`, with
`improved = (best_score > initial_score)`. -/
def create_result (bp : Params) (bs : WithBot ℚ) (initial : ℚ) (iters : ℕ)
    (history : List (WithBot ℚ)) : OptimizationResult :=
  { best_params := bp
    best_score := bs
    initial_score := initial
    iterations := iters
    score_history := history
    improved := decide (bs > (initial : WithBot ℚ)) }

/-- Method `GridSearchOptimizer.optimize`: coarse phase over the full bounds, an
inter-phase cancellation check, then the fine phase centred on the coarse
best with window factor `fine_range_factor`; the history records the initial
score and each phase's best. -/
def gs_optimize (cfg : GSConfig) (ev : Params → ℚ) (stops : ℕ → Bool)
    (pipeline : List String) (current_params : Params) : OptimizationResult :=
  let initial_score := ev current_params
  let coarse := grid_search_phase cfg ev stops pipeline current_params
    cfg.coarse_divisions none 1 0
  let history1 : List (WithBot ℚ) := [(initial_score : WithBot ℚ), coarse.2.1]
  if stops coarse.2.2.2 then
    create_result coarse.1 coarse.2.1 initial_score coarse.2.2.1 history1
  else
    let fine := grid_search_phase cfg ev stops pipeline current_params
      cfg.fine_divisions (some coarse.1) cfg.fine_range_factor (coarse.2.2.2 + 1)
    create_result fine.1 fine.2.1 initial_score (coarse.2.2.1 + fine.2.2.1)
      (history1 ++ [fine.2.1])

/-! ## Claims about the grid-search run -/

/-- C2: for every run of either optimizer — any configuration, evaluation
function, cancellation timing, pipeline and starting parameters, so including
runs ended by cancellation or budget exhaustion — the returned result
satisfies `improved = (best_score > initial_score)`. -/
theorem C2_improved_iff_best_gt_initial (hcfg : HCConfig) (gcfg : GSConfig)
    (ev ev' : Params → ℚ) (stops stops' : ℕ → Bool)
    (pipeline pipeline' : List String) (params params' : Params) :
    ((hc_optimize hcfg ev stops pipeline params).improved = true ↔
      (hc_optimize hcfg ev stops pipeline params).best_score >
        ((hc_optimize hcfg ev stops pipeline params).initial_score : WithBot ℚ)) ∧
    ((gs_optimize gcfg ev' stops' pipeline' params').improved = true ↔
      (gs_optimize gcfg ev' stops' pipeline' params').best_score >
        ((gs_optimize gcfg ev' stops' pipeline' params').initial_score : WithBot ℚ)) := by
  constructor
  · simp only [hc_optimize, decide_eq_true_eq]
    exact ⟨fun h => WithBot.coe_lt_coe.mpr h, fun h => WithBot.coe_lt_coe.mp h⟩
  · simp only [gs_optimize, create_result]
    split_ifs <;> simp [decide_eq_true_eq]

/-- Configuration for the C1 counterexample: one filter with one continuous
parameter bounded `(0, 1, 0.1)` and the default grid-search divisions. -/
def gsCfgCx : GSConfig := { param_bounds := [("F", [("a", (0, 1, 1/10))])] }

/-- Counterexample to C1 as stated: starting from `a = 0.3` with an
evaluation function that scores the starting parameters 5 and every other
assignment 0, the initial score is 5 but neither phase's grid contains 0.3,
so both phase bests are 0 and the returned `score_history` is `[5, 0, 0]` —
strictly decreasing at its first step.  Grid-search history entries are
phase-local bests that never include the initial score, so the
non-decreasing invariant fails for `GridSearchOptimizer`. -/
theorem C1_gs_score_history_decreasing_counterexample :
    ¬ (gs_optimize gsCfgCx
        (fun ps => if alookup2 ps "F" "a" = some (3/10) then 5 else 0)
        (fun _ => false) ["F"] [("F", [("a", 3/10)])]).score_history.Chain'
        (· ≤ ·) := by
  have hh : (gs_optimize gsCfgCx
      (fun ps => if alookup2 ps "F" "a" = some (3/10) then 5 else 0)
      (fun _ => false) ["F"] [("F", [("a", 3/10)])]).score_history =
      [((5 : ℚ) : WithBot ℚ), ((0 : ℚ) : WithBot ℚ), ((0 : ℚ) : WithBot ℚ)] := by
    with_unfolding_all decide
  rw [hh]
  intro hch
  have h5 : ((5 : ℚ) : WithBot ℚ) ≤ ((0 : ℚ) : WithBot ℚ) :=
    (List.chain'_cons.mp hch).1
  have : (5 : ℚ) ≤ 0 := WithBot.coe_le_coe.mp h5
  norm_num at this

/-- Bounds for the C6 scenario: two independent continuous parameters, each
bounded `(0.0, 1.0, 0.1)`. -/
def gsBounds6 : BoundsTable :=
  [("F", [("a", (0, 1, 1/10)), ("b", (0, 1, 1/10))])]

/-- Grid-search configuration for the C6 scenario. -/
def gsCfg6 (maxit : ℕ) : GSConfig :=
  { param_bounds := gsBounds6, max_iterations := maxit }

/-- Caller parameters for the C6 scenario. -/
def gsParams6 : Params := [("F", [("a", 0), ("b", 0)])]

/-- With cancellation never requested, the phase loop evaluates every
combination as long as the iteration budget is not exhausted. -/
theorem gs_loop_count (cfg : GSConfig) (ev : Params → ℚ) (stops : ℕ → Bool)
    (hstops : ∀ n, stops n = false) (current : Params)
    (names : List (String × String)) :
    ∀ (combos : List (List ℚ)) (bp : Params) (bs : WithBot ℚ)
      (iter checks : ℕ), iter + combos.length ≤ cfg.max_iterations →
      (gs_loop cfg ev stops current names combos bp bs
        iter checks).2.2.1 = iter + combos.length
  | [], bp, bs, iter, checks, h => by simp [gs_loop]
  | combo :: rest, bp, bs, iter, checks, h => by
      rw [List.length_cons] at h
      simp only [gs_loop]
      rw [hstops checks, if_neg Bool.false_ne_true]
      by_cases hbudget : cfg.max_iterations ≤ iter + 1
      · rw [if_pos hbudget]
        show iter + 1 = iter + (rest.length + 1)
        omega
      · rw [if_neg hbudget]
        rw [gs_loop_count cfg ev stops hstops current names rest _ _
          (iter + 1) (checks + 1) (by omega)]
        rw [List.length_cons]
        omega

/-- C6: with one filter and one continuous parameter bounded
`(0.0, 1.0, 0.1)` and `coarse_divisions = 3`, the coarse grid is exactly
`[0, 0.5, 1]`; with two such independent parameters, the coarse phase
(divisions 3, full range) evaluates exactly 9 combinations for every
evaluation function, provided `max_iterations ≥ 9`. -/
theorem C6_coarse_enumeration (ev : Params → ℚ) (maxit : ℕ) (h : 9 ≤ maxit) :
    generate_grid_values [("F", [("a", (0, 1, 1/10))])] "F" "a" 3 none 1 =
      [0, 1/2, 1] ∧
    (grid_search_phase (gsCfg6 maxit) ev (fun _ => false) ["F"] gsParams6 3
      none 1 0).2.2.1 = 9 := by
  constructor
  · with_unfolding_all decide
  · have hgrids : build_param_grids gsBounds6 ["F"] gsParams6 3 none 1 =
        [(("F", "a"), [0, 1/2, 1]), (("F", "b"), [0, 1/2, 1])] := by
      with_unfolding_all decide
    unfold grid_search_phase
    have hb : (gsCfg6 maxit).param_bounds = gsBounds6 := rfl
    rw [hb, hgrids]
    rw [if_neg (by decide)]
    simp only [List.map_cons, List.map_nil]
    have hlen : (cartProd [[0, 1/2, 1], [0, 1/2, 1]]).length = 9 := by decide
    rw [gs_loop_count (gsCfg6 maxit) ev (fun _ => false) (fun _ => rfl)
      gsParams6 [("F", "a"), ("F", "b")]
      (cartProd [[0, 1/2, 1], [0, 1/2, 1]]) gsParams6 ⊥ 0 0
      (by rw [hlen]; simpa [gsCfg6] using h)]
    rw [hlen]

/-- Witness for C6 at a concrete input: `max_iterations = 9` and a constant
evaluation function. -/
theorem C6_coarse_enumeration_witness :
    (grid_search_phase (gsCfg6 9) (fun _ => 0) (fun _ => false) ["F"]
      gsParams6 3 none 1 0).2.2.1 = 9 :=
  (C6_coarse_enumeration (fun _ => 0) 9 (by decide)).2

/-- Hypothesis of C10: no pipeline filter contributes a grid parameter —
every filter name is missing from the bounds table, or every bounded
parameter of it is missing from the caller's `current_params`. -/
def noGridParams (bounds : BoundsTable) (pipeline : List String)
    (current : Params) : Prop :=
  ∀ f ∈ pipeline, alookup bounds f = none ∨
    ∀ bps, alookup bounds f = some bps →
      ∀ pr ∈ bps, alookup2 current f pr.1 = none

theorem build_param_grids_nil (bounds : BoundsTable) (current : Params)
    (d : ℕ) (c : Option Params) (rf : ℚ) :
    ∀ pipeline, noGridParams bounds pipeline current →
      build_param_grids bounds pipeline current d c rf = []
  | [], _ => rfl
  | f :: rest, h => by
      have hf := h f (List.mem_cons_self f rest)
      have hrest : noGridParams bounds rest current := fun g hg =>
        h g (List.mem_cons_of_mem f hg)
      have hrec := build_param_grids_nil bounds current d c rf rest hrest
      simp only [build_param_grids, List.flatMap_cons] at hrec ⊢
      rcases halk : alookup bounds f with _ | bps
      · simpa using hrec
      · have hnone : ∀ pr ∈ bps, alookup2 current f pr.1 = none := by
          rcases hf with hf | hf
          · rw [halk] at hf; exact absurd hf (by simp)
          · exact hf bps halk
        have hinner : (bps.flatMap fun pr =>
            if (alookup2 current f pr.1).isSome then
              [((f, pr.1), generate_grid_values bounds f pr.1 d
                (c.map fun cp => getFP cp f pr.1) rf)]
            else []) = [] := by
          rw [List.flatMap_eq_nil_iff]
          intro pr hpr
          rw [hnone pr hpr]
          rfl
        simpa [hinner] using hrec

theorem grid_search_phase_empty (cfg : GSConfig) (ev : Params → ℚ)
    (stops : ℕ → Bool) (pipeline : List String) (current : Params)
    (d : ℕ) (c : Option Params) (rf : ℚ) (checks : ℕ)
    (h : noGridParams cfg.param_bounds pipeline current) :
    grid_search_phase cfg ev stops pipeline current d c rf checks =
      (current, (0 : WithBot ℚ), 0, checks) := by
  unfold grid_search_phase
  rw [build_param_grids_nil cfg.param_bounds current d c rf pipeline h]
  rfl

/-- C10: for every `GridSearchOptimizer` run in which no grid values are
generated for any pipeline filter (every filter name missing from the bounds
table, or every bounded parameter missing from the caller's parameters),
each phase returns the caller's parameters with phase score `0.0` and `0`
evaluations, so the final result has the caller's parameters,
`best_score = 0.0`, `iterations = 0`, and `improved` is true exactly when
the initial score is negative — even though no candidate was evaluated.
This holds for every cancellation timing. -/
theorem C10_no_grid_values_result (cfg : GSConfig) (ev : Params → ℚ)
    (stops : ℕ → Bool) (pipeline : List String) (current : Params)
    (h : noGridParams cfg.param_bounds pipeline current) :
    (gs_optimize cfg ev stops pipeline current).best_params = current ∧
    (gs_optimize cfg ev stops pipeline current).best_score = (0 : WithBot ℚ) ∧
    (gs_optimize cfg ev stops pipeline current).iterations = 0 ∧
    ((gs_optimize cfg ev stops pipeline current).improved = true ↔
      (gs_optimize cfg ev stops pipeline current).initial_score < 0) := by
  simp only [gs_optimize]
  rw [grid_search_phase_empty cfg ev stops pipeline current
    cfg.coarse_divisions none 1 0 h]
  rw [grid_search_phase_empty cfg ev stops pipeline current
    cfg.fine_divisions (some current) cfg.fine_range_factor 1 h]
  have hiff : ∀ r : OptimizationResult,
      r = create_result current (0 : WithBot ℚ) (ev current) 0
        [((ev current : ℚ) : WithBot ℚ), (0 : WithBot ℚ)] →
      True := fun _ _ => trivial
  split_ifs with hstop <;>
    refine ⟨rfl, rfl, rfl, ?_⟩ <;>
    · simp only [create_result, decide_eq_true_eq]
      constructor
      · intro hlt
        have h0 : ((0 : ℚ) : WithBot ℚ) = (0 : WithBot ℚ) := rfl
        rw [← h0] at hlt
        exact WithBot.coe_lt_coe.mp hlt
      · intro hlt
        have h0 : ((0 : ℚ) : WithBot ℚ) = (0 : WithBot ℚ) := rfl
        rw [← h0]
        exact WithBot.coe_lt_coe.mpr hlt

/-- Witness for C10 at a concrete input: the pipeline filter `"G"` has no
bounds entry and the initial score is negative, so the run reports
`improved = true` with `best_score = 0` and zero evaluations. -/
theorem C10_no_grid_values_result_witness :
    (gs_optimize gsCfgCx (fun _ => -1) (fun _ => false) ["G"] []).best_score =
      (0 : WithBot ℚ) ∧
    (gs_optimize gsCfgCx (fun _ => -1) (fun _ => false) ["G"] []).iterations = 0 ∧
    ((gs_optimize gsCfgCx (fun _ => -1) (fun _ => false) ["G"] []).improved = true ↔
      (gs_optimize gsCfgCx (fun _ => -1) (fun _ => false) ["G"] []).initial_score < 0) := by
  have h := C10_no_grid_values_result gsCfgCx (fun _ => -1) (fun _ => false)
    ["G"] [] (by
      intro f hf
      simp only [List.mem_singleton] at hf
      subst hf
      left
      rfl)
  exact ⟨h.2.1, h.2.2.1, h.2.2.2⟩

end NoiseOpt
